import Mathlib

/-!
Shallow embedding of the retrieval-augmented answer pipeline of
`src/services/rag_service.py` (`RAGService.query`, `RAGService.add_document`),
together with theorems settling the specification claims about it.

External providers (embedding model, vector index, generative model) are
modelled as an environment of fallible functions (`Except String _`), matching
the Python code where each provider call may raise an exception that is caught
by the surrounding `try`/`except` block.  Distances and relevance scores are
modelled as rationals.
-/

namespace RagCore

/-- An embedding vector (fixed-dimension numeric vector in the real system). -/
abbrev Embedding := List ℚ

/-- Chunk metadata as stored in the index (`rag_service.py` lines 96-100).
Fields are optional because `query` reads them back with `metadata.get(key, default)`. -/
structure Metadata where
  source : Option String
  chunk_id : Option Nat
  content_length : Option Nat
deriving Repr, DecidableEq

/-- One retrieval hit returned by the vector index: aligned entries of the
`documents`, `metadatas` and `distances` arrays of `collection.query`. -/
structure Hit where
  document : String
  metadata : Metadata
  distance : ℚ
deriving Repr, DecidableEq

/-- One source-attribution entry of a query result (`rag_service.py` lines 194-198). -/
structure SourceAttribution where
  source : String
  chunk_id : Nat
  relevance_score : ℚ
deriving Repr, DecidableEq

/-- The dictionary returned by `RAGService.query`. -/
structure QueryResult where
  answer : String
  sources : List SourceAttribution
deriving Repr, DecidableEq

/-- One record committed to the vector index by `collection.add`
(`rag_service.py` lines 103-108). -/
structure IndexRecord where
  id : String
  embedding : Embedding
  document : String
  metadata : Metadata
deriving Repr, DecidableEq

/-- `needle.isPrefixOf hay`-based substring containment: Lean model of Python's
`needle in hay` on strings, on the underlying character lists. -/
def substrIn (needle : List Char) : List Char → Bool
  | [] => needle.isEmpty
  | c :: t => needle.isPrefixOf (c :: t) || substrIn needle t

/-- Python `needle in hay` for strings. -/
def strIn (needle hay : String) : Bool :=
  substrIn needle.data hay.data

/-- The fixed greeting/small-talk phrase table (`rag_service.py` lines 120-124). -/
def casualGreetings : List String :=
  ["how are you", "كيف حالك", "كيفك", "شلونك", "ازيك",
   "hello", "hi", "مرحبا", "أهلا", "السلام عليكم",
   "good morning", "good evening", "صباح الخير", "مساء الخير"]

/-- The Arabic-marker substrings used for language detection
(`rag_service.py` line 137). -/
def arabicMarkers : List String :=
  ["كيف", "شلون", "ازي", "مرحبا", "أهلا", "السلام"]

/-- Python `str.strip()`: remove leading and trailing whitespace, modelled on
the character list. -/
def trimList (l : List Char) : List Char :=
  ((l.dropWhile Char.isWhitespace).reverse.dropWhile Char.isWhitespace).reverse

/-- `question.lower().strip()` (`rag_service.py` line 126).  `Char.toLower`
lowers ASCII letters, which agrees with Python's `lower` on the phrase table
and markers in use (Arabic has no letter case). -/
def normalizeQuestion (question : String) : String :=
  String.mk (trimList (question.data.map Char.toLower))

/-- `is_casual` (`rag_service.py` line 127): some greeting phrase occurs as a
substring of the lowercased, trimmed question. -/
def isCasualB (question : String) : Bool :=
  casualGreetings.any fun g => strIn g (normalizeQuestion question)

/-- Arabic-language detection for greeting replies (`rag_service.py` line 137). -/
def hasArabicMarkerB (question : String) : Bool :=
  arabicMarkers.any fun w => strIn w (normalizeQuestion question)

/-- The fixed Arabic canned friendly response (`rag_service.py` line 132). -/
def friendlyResponseAr : String :=
  "مرحباً! أنا بخير، شكراً لسؤالك. أنا مساعدك الذكي في AgentX AI وأنا هنا لمساعدتك في أي استفسارات تتعلق بالشركة أو سياسات الموارد البشرية. كيف يمكنني مساعدتك اليوم؟"

/-- The fixed English canned friendly response (`rag_service.py` line 133). -/
def friendlyResponseEn : String :=
  "Hello! I'm doing great, thank you for asking! I'm your AI assistant at AgentX AI, and I'm here to help you with any questions about the company or HR policies. How can I assist you today?"

/-- The fixed localized no-information answer (`rag_service.py` line 161). -/
def noInfoAnswer : String :=
  "عذراً، لم أتمكن من العثور على معلومات ذات صلة بسؤالك في قاعدة البيانات. هل يمكنك إعادة صياغة السؤال أو تقديم المزيد من التفاصيل؟"

/-- The localized error answer built in the `except` handler
(`rag_service.py` line 208): prefix plus the exception text. -/
def errorAnswer (e : String) : String :=
  "حدث خطأ أثناء معالجة السؤال: " ++ e

/-- The fixed instruction block of the prompt f-string up to the interpolated
context (`rag_service.py` lines 169-179). -/
def promptHeader : String :=
  "\nأنت مساعد ذكي ودود متخصص في الإجابة على الأسئلة المتعلقة بشركة AgentX AI وسياسات الموارد البشرية.\n\nتعليمات مهمة:\n1. كن ودوداً ومفيداً في جميع إجاباتك\n2. إذا سُئلت أسئلة عامة أو ودية، جاوب بشكل طبيعي وودود\n3. ركز على تقديم معلومات دقيقة ومفيدة\n4. إذا لم تكن المعلومات كافية، اقترح طرق للحصول على مزيد من المساعدة\n\nالمعلومات المتاحة:\n"

/-- The fixed text between the interpolated context and the interpolated
question (`rag_service.py` line 181). -/
def promptQuestionLabel : String := "\n\nالسؤال: "

/-- The fixed text after the interpolated question (`rag_service.py` line 183). -/
def promptFooter : String :=
  "\n\nالإجابة: قدم إجابة شاملة ودقيقة وودية باللغة العربية بناءً على المعلومات المتاحة أعلاه.\n"

/-- The prompt f-string (`rag_service.py` lines 169-184), with the retrieved
context and the verbatim question interpolated. -/
def mkPrompt (context question : String) : String :=
  promptHeader ++ context ++ promptQuestionLabel ++ question ++ promptFooter

/-- `"\n\n".join(results['documents'][0])` (`rag_service.py` line 166). -/
def assembleContext (hits : List Hit) : String :=
  String.intercalate "\n\n" (hits.map (·.document))

/-- The source-attribution list built from the retrieval hits
(`rag_service.py` lines 192-198): enumerate the hits, read metadata with
defaults, and score each hit as `1 - distance` with no clamping. -/
def attributions (hits : List Hit) : List SourceAttribution :=
  hits.enum.map fun p =>
    { source := p.2.metadata.source.getD "Unknown"
      chunk_id := p.2.metadata.chunk_id.getD p.1
      relevance_score := 1 - p.2.distance }

/-- The external providers used at query time: question embedding
(`embeddings.embed_query`), nearest-neighbour search (`collection.query`) and
generation (`llm.invoke`, of which the code reads `.content`).  Each may fail
with an exception message. -/
structure QueryEnv where
  embedQuery : String → Except String Embedding
  search : Embedding → Nat → Except String (List Hit)
  generate : String → Except String String

/-- `RAGService.query` (`rag_service.py` lines 116-210).  The Python `try`
block with a trailing `except Exception` is modelled by matching on each
fallible provider call: any failure yields the degraded result with the
localized error answer and empty sources. -/
def query (env : QueryEnv) (question : String) (nResults : Nat) : QueryResult :=
  if isCasualB question then
    { answer := if hasArabicMarkerB question then friendlyResponseAr else friendlyResponseEn
      sources := [] }
  else
    match env.embedQuery question with
    | .error e => { answer := errorAnswer e, sources := [] }
    | .ok emb =>
      match env.search emb nResults with
      | .error e => { answer := errorAnswer e, sources := [] }
      | .ok hits =>
        if hits.isEmpty then
          { answer := noInfoAnswer, sources := [] }
        else
          match env.generate (mkPrompt (assembleContext hits) question) with
          | .error e => { answer := errorAnswer e, sources := [] }
          | .ok resp => { answer := resp, sources := attributions hits }

/-! ## Ingestion (`RAGService.add_document`, lines 82-114) -/

/-- The external collaborators used at ingestion time: the text splitter's
chunk texts (`text_splitter.create_documents` / `page_content`), the batched
embedding call (`embeddings.embed_documents`), the per-chunk `uuid.uuid4()`
draws, and whether `collection.add` raises. -/
structure IngestEnv where
  split : String → List String
  embedDocs : List String → Except String (List Embedding)
  uuids : Nat → String
  indexAddFails : Option String

/-- The id string assigned to chunk `i` of a file
(`rag_service.py` line 93): `f"{filename}_{i}_{uuid.uuid4()}"`. -/
def mkId (filename : String) (i : Nat) (u : String) : String :=
  filename ++ "_" ++ toString i ++ "_" ++ u

/-- The id list of one ingestion call (`rag_service.py` line 93). -/
def assignedIds (filename : String) (uuids : Nat → String) (n : Nat) : List String :=
  (List.range n).map fun i => mkId filename i (uuids i)

/-- The metadata list of one ingestion call (`rag_service.py` lines 96-100). -/
def chunkMetadatas (filename : String) (texts : List String) : List Metadata :=
  texts.enum.map fun p =>
    { source := some filename
      chunk_id := some p.1
      content_length := some p.2.length }

/-- The records committed by `collection.add` (`rag_service.py` lines 103-108):
the aligned ids, embeddings, documents and metadatas. -/
def chunkRecords (ids : List String) (embs : List Embedding)
    (texts : List String) (metas : List Metadata) : List IndexRecord :=
  (ids.zip (embs.zip (texts.zip metas))).map fun r =>
    { id := r.1, embedding := r.2.1, document := r.2.2.1, metadata := r.2.2.2 }

/-- `RAGService.add_document` (`rag_service.py` lines 82-114) with the vector
index made explicit as a list of records.  Returns the index after the call and
either the report string or the propagated exception: on an embedding failure
the `except` handler re-raises before `collection.add` runs, so the index is
returned unchanged; on an index-write failure the exception propagates and no
report is produced. -/
def add_document (env : IngestEnv) (index : List IndexRecord)
    (content filename : String) : List IndexRecord × Except String String :=
  let texts := env.split content
  match env.embedDocs texts with
  | .error e => (index, .error e)
  | .ok embs =>
    let ids := assignedIds filename env.uuids texts.length
    let metas := chunkMetadatas filename texts
    match env.indexAddFails with
    | some e => (index, .error e)
    | none =>
      (index ++ chunkRecords ids embs texts metas,
       .ok ("Added " ++ toString texts.length ++ " chunks from " ++ filename))

/-! ## Chunker

The chunking algorithm itself lives in the third-party
`RecursiveCharacterTextSplitter` (configured at `rag_service.py` lines 53-57),
whose code is not part of this repository, so it is modelled from the
specification. -/

/-- Modelled from the spec: the Chunker contract of §4.1 — the repository
delegates chunking to the external `RecursiveCharacterTextSplitter`, whose
source is not in this repository.  Per the spec, chunks are produced under a
target size with consecutive chunks overlapping "by exactly the configured
overlap amount", and empty input yields an empty sequence; so each chunk after
the first starts `size - overlap` characters after its predecessor.  Text is a
character list; `chunkText size overlap text` returns the chunk list. -/
def chunkText (size overlap : Nat) (text : List Char) : List (List Char) :=
  if text.isEmpty then []
  else if text.length ≤ size then [text]
  else
    match _h : size - overlap with
    | 0 => [text]
    | step + 1 => text.take size :: chunkText size overlap (text.drop (step + 1))
termination_by text.length
decreasing_by
  simp only [List.length_drop]
  omega

/-- Modelled from the spec: reconstruction of a document from its chunks, where
"removing the overlapping overlap regions" drops the first `overlap` characters
of every chunk after the first (§4.1 round-trip property). -/
def reconstructChunks (overlap : Nat) : List (List Char) → List Char
  | [] => []
  | c :: cs => c ++ (cs.map (List.drop overlap)).flatten

/-! ## Concrete environments used to exercise the model -/

/-- A query environment whose providers all fail. -/
def envFail : QueryEnv :=
  { embedQuery := fun _ => .error "boom"
    search := fun _ _ => .error "boom"
    generate := fun _ => .error "boom" }

/-- A sample retrieval hit with distance `3/2` (cosine distance can exceed 1). -/
def hitA : Hit :=
  { document := "Annual leave is 21 days."
    metadata := { source := some "hr_data.txt", chunk_id := some 0, content_length := some 24 }
    distance := 3 / 2 }

/-- A query environment where every provider call succeeds, returning `hitA`
and a generated answer carrying surrounding whitespace. -/
def envOk : QueryEnv :=
  { embedQuery := fun _ => .ok [1]
    search := fun _ _ => .ok [hitA]
    generate := fun _ => .ok " An answer. " }

/-- A query environment whose index returns no hits. -/
def envNoHits : QueryEnv :=
  { embedQuery := fun _ => .ok [1]
    search := fun _ _ => .ok []
    generate := fun _ => .ok "unused" }

/-- The Arabic entries of the fixed greeting phrase table. -/
def arabicGreetingPhrases : List String :=
  ["كيف حالك", "كيفك", "شلونك", "ازيك", "مرحبا", "أهلا", "السلام عليكم",
   "صباح الخير", "مساء الخير"]

/-- The uuid stream used in the first sample ingestion environment:
`"u"`, `"uu"`, `"uuu"`, ... — pairwise distinct and underscore-free. -/
def uuidsU : Nat → String := fun i => String.mk (List.replicate (i + 1) 'u')

/-- The uuid stream of the second sample ingestion environment. -/
def uuidsV : Nat → String := fun i => String.mk (List.replicate (i + 1) 'v')

/-- Ingestion environment whose embedding provider fails. -/
def ingEnvEmbedFail : IngestEnv :=
  { split := fun c => [c]
    embedDocs := fun _ => .error "embed down"
    uuids := uuidsU
    indexAddFails := none }

/-- Ingestion environment whose index write fails after a successful embedding. -/
def ingEnvWriteFail : IngestEnv :=
  { split := fun c => [c]
    embedDocs := fun ts => .ok (ts.map fun _ => [1])
    uuids := uuidsU
    indexAddFails := some "chroma down" }

/-- Fully succeeding ingestion environment drawing uuids from `uuidsU`. -/
def ingEnvA : IngestEnv :=
  { split := fun c => [c]
    embedDocs := fun ts => .ok (ts.map fun _ => [1])
    uuids := uuidsU
    indexAddFails := none }

/-- Fully succeeding ingestion environment drawing uuids from `uuidsV`. -/
def ingEnvB : IngestEnv :=
  { split := fun c => [c]
    embedDocs := fun ts => .ok (ts.map fun _ => [1])
    uuids := uuidsV
    indexAddFails := none }

/-! ## Unfolding lemmas for `query` -/

theorem query_greeting (env : QueryEnv) (q : String) (n : Nat)
    (h : isCasualB q = true) :
    query env q n =
      { answer := if hasArabicMarkerB q then friendlyResponseAr else friendlyResponseEn
        sources := [] } := by
  simp [query, h]

theorem query_embed_error (env : QueryEnv) (q : String) (n : Nat) (e : String)
    (hng : isCasualB q = false) (he : env.embedQuery q = .error e) :
    query env q n = { answer := errorAnswer e, sources := [] } := by
  simp [query, hng, he]

theorem query_search_error (env : QueryEnv) (q : String) (n : Nat)
    (emb : Embedding) (e : String)
    (hng : isCasualB q = false) (he : env.embedQuery q = .ok emb)
    (hs : env.search emb n = .error e) :
    query env q n = { answer := errorAnswer e, sources := [] } := by
  simp [query, hng, he, hs]

theorem query_no_hits (env : QueryEnv) (q : String) (n : Nat) (emb : Embedding)
    (hng : isCasualB q = false) (he : env.embedQuery q = .ok emb)
    (hs : env.search emb n = .ok []) :
    query env q n = { answer := noInfoAnswer, sources := [] } := by
  simp [query, hng, he, hs]

theorem query_generate_error (env : QueryEnv) (q : String) (n : Nat)
    (emb : Embedding) (hits : List Hit) (e : String)
    (hng : isCasualB q = false) (he : env.embedQuery q = .ok emb)
    (hs : env.search emb n = .ok hits) (hne : hits ≠ [])
    (hg : env.generate (mkPrompt (assembleContext hits) q) = .error e) :
    query env q n = { answer := errorAnswer e, sources := [] } := by
  simp [query, hng, he, hs, List.isEmpty_iff, hne, hg]

theorem query_success (env : QueryEnv) (q : String) (n : Nat)
    (emb : Embedding) (hits : List Hit) (resp : String)
    (hng : isCasualB q = false) (he : env.embedQuery q = .ok emb)
    (hs : env.search emb n = .ok hits) (hne : hits ≠ [])
    (hg : env.generate (mkPrompt (assembleContext hits) q) = .ok resp) :
    query env q n = { answer := resp, sources := attributions hits } := by
  simp [query, hng, he, hs, List.isEmpty_iff, hne, hg]

theorem attributions_length (hits : List Hit) :
    (attributions hits).length = hits.length := by
  simp [attributions, List.enum_length]

theorem isPrefixOf_self (l : List Char) : l.isPrefixOf l = true := by
  induction l with
  | nil => rfl
  | cons c t ih => simp [List.isPrefixOf, ih]

theorem substrIn_self (l : List Char) : substrIn l l = true := by
  cases l with
  | nil => rfl
  | cons c t => simp [substrIn, isPrefixOf_self]

theorem strIn_self (s : String) : strIn s s = true :=
  substrIn_self s.data

end RagCore

namespace RagCore

/-! ## Claims about `RAGService.query` -/

/-- C1: for every question and every internal failure during query processing
(embedding failure, index failure, generation failure), the query operation
never raises past its own boundary: it returns a `QueryResult` whose answer is
the localized error-message string and whose sources list is empty. -/
theorem query_failure_returns_localized_error
    (env : QueryEnv) (q : String) (n : Nat) (e : String)
    (hng : isCasualB q = false)
    (hfail : env.embedQuery q = .error e
      ∨ (∃ emb, env.embedQuery q = .ok emb ∧ env.search emb n = .error e)
      ∨ (∃ emb hits, env.embedQuery q = .ok emb ∧ env.search emb n = .ok hits
          ∧ hits ≠ [] ∧ env.generate (mkPrompt (assembleContext hits) q) = .error e)) :
    query env q n = { answer := errorAnswer e, sources := [] } := by
  rcases hfail with he | ⟨emb, he, hs⟩ | ⟨emb, hits, he, hs, hne, hg⟩
  · exact query_embed_error env q n e hng he
  · exact query_search_error env q n emb e hng he hs
  · exact query_generate_error env q n emb hits e hng he hs hne hg

/-- Witness for C1: a concrete failing embedding provider yields the localized
error answer with empty sources. -/
theorem query_failure_returns_localized_error_witness :
    query envFail "what is the leave policy" 5
      = { answer := errorAnswer "boom", sources := [] } :=
  query_failure_returns_localized_error envFail "what is the leave policy" 5 "boom"
    (by decide) (Or.inl rfl)

/-- C2: for every query, the number of source-attribution entries equals the
number of retrieval hits returned by the index (no hit is silently dropped),
except in the greeting short-circuit, where sources is always empty.  The
hit-count clause is about queries that complete normally, so it is stated under
success of the provider calls (failures are the subject of C1). -/
theorem sources_count_matches_hits (env : QueryEnv) (q : String) (n : Nat) :
    (isCasualB q = true → (query env q n).sources = [])
    ∧ (∀ emb hits, isCasualB q = false → env.embedQuery q = .ok emb →
        env.search emb n = .ok hits →
        (hits = [] ∨ ∃ resp, env.generate (mkPrompt (assembleContext hits) q) = .ok resp) →
        (query env q n).sources.length = hits.length) := by
  constructor
  · intro h
    rw [query_greeting env q n h]
  · intro emb hits hng he hs hcase
    by_cases hne : hits = []
    · subst hne
      rw [query_no_hits env q n emb hng he hs]
      rfl
    · rcases hcase with rfl | ⟨resp, hg⟩
      · exact absurd rfl hne
      · rw [query_success env q n emb hits resp hng he hs hne hg]
        exact attributions_length hits

/-- Witness for C2: the greeting clause at "hello", the counting clause at a
one-hit query. -/
theorem sources_count_matches_hits_witness :
    (query envFail "hello" 5).sources = []
    ∧ (query envOk "what is the leave policy" 5).sources.length = 1 :=
  ⟨(sources_count_matches_hits envFail "hello" 5).1 (by decide),
   (sources_count_matches_hits envOk "what is the leave policy" 5).2 [1] [hitA]
     (by decide) rfl rfl (Or.inr ⟨" An answer. ", rfl⟩)⟩

/-- C3: for every retrieval hit with distance `d`, the relevance score of the
corresponding source attribution is exactly `1 - d`, with no clamping. -/
theorem relevance_score_is_one_minus_distance
    (env : QueryEnv) (q : String) (n : Nat)
    (emb : Embedding) (hits : List Hit) (resp : String)
    (hng : isCasualB q = false) (he : env.embedQuery q = .ok emb)
    (hs : env.search emb n = .ok hits) (hne : hits ≠ [])
    (hg : env.generate (mkPrompt (assembleContext hits) q) = .ok resp)
    (i : Nat) (hit : Hit) (hi : hits[i]? = some hit) :
    ∃ s : SourceAttribution, (query env q n).sources[i]? = some s
      ∧ s.relevance_score = 1 - hit.distance := by
  rw [query_success env q n emb hits resp hng he hs hne hg]
  refine ⟨{ source := hit.metadata.source.getD "Unknown"
            chunk_id := hit.metadata.chunk_id.getD i
            relevance_score := 1 - hit.distance }, ?_, rfl⟩
  simp [attributions, List.getElem?_map, List.getElem?_enum, hi]

/-- Witness for C3: a hit at distance `3/2` yields relevance score `-1/2`,
negative and unclamped. -/
theorem relevance_score_is_one_minus_distance_witness :
    (query envOk "what is the leave policy" 5).sources[0]?.map
        (fun s => s.relevance_score) = some (-(1 / 2) : ℚ)
    ∧ (-(1 / 2) : ℚ) < 0 := by
  obtain ⟨s, h1, h2⟩ := relevance_score_is_one_minus_distance envOk
    "what is the leave policy" 5 [1] [hitA] " An answer. "
    (by decide) rfl rfl (by simp) rfl 0 hitA rfl
  refine ⟨?_, by norm_num⟩
  rw [h1, Option.map_some', h2]
  norm_num [hitA]

/-- C5: a query whose retrieval returns no hits yields the deterministic fixed
localized "no information found" answer with empty sources, as a normal result
rather than an error. -/
theorem no_hits_returns_fixed_answer
    (env : QueryEnv) (q : String) (n : Nat) (emb : Embedding)
    (hng : isCasualB q = false) (he : env.embedQuery q = .ok emb)
    (hs : env.search emb n = .ok []) :
    query env q n = { answer := noInfoAnswer, sources := [] } :=
  query_no_hits env q n emb hng he hs

/-- Witness for C5: a concrete empty-index environment. -/
theorem no_hits_returns_fixed_answer_witness :
    query envNoHits "what is the leave policy" 5
      = { answer := noInfoAnswer, sources := [] } :=
  no_hits_returns_fixed_answer envNoHits "what is the leave policy" 5 [1]
    (by decide) rfl rfl

/-- C10: greeting classification is substring containment, not whole-phrase
equality: any question whose lowercased trimmed text contains a phrase of the
greeting table as a substring short-circuits to a canned response with empty
sources, and retrieval/generation are never performed (the result does not
depend on the providers at all). -/
theorem substring_containment_short_circuits
    (env : QueryEnv) (q : String) (n : Nat)
    (hg : ∃ g ∈ casualGreetings, strIn g (normalizeQuestion q) = true) :
    (query env q n).sources = []
    ∧ ((query env q n).answer = friendlyResponseAr
        ∨ (query env q n).answer = friendlyResponseEn)
    ∧ (∀ env' : QueryEnv, query env q n = query env' q n) := by
  have hc : isCasualB q = true := by
    rcases hg with ⟨g, hmem, hin⟩
    unfold isCasualB
    rw [List.any_eq_true]
    exact ⟨g, hmem, hin⟩
  have h1 := query_greeting env q n hc
  refine ⟨by rw [h1], ?_, ?_⟩
  · rw [h1]
    by_cases hm : hasArabicMarkerB q <;> simp [hm]
  · intro env'
    rw [h1, query_greeting env' q n hc]

/-- Witness for C10: "think" contains "hi" inside a word and is treated as a
greeting, with a result independent of the providers. -/
theorem substring_containment_short_circuits_witness :
    (query envFail "think" 5).sources = []
    ∧ ((query envFail "think" 5).answer = friendlyResponseAr
        ∨ (query envFail "think" 5).answer = friendlyResponseEn)
    ∧ query envFail "think" 5 = query envOk "think" 5 := by
  have h := substring_containment_short_circuits envFail "think" 5
    ⟨"hi", by decide, by decide⟩
  exact ⟨h.1, h.2.1, h.2.2 envOk⟩

set_option maxRecDepth 16384 in
/-- Counterexample to C4: the question "صباح الخير" is exactly an Arabic
greeting phrase of the table, yet the pipeline answers with the fixed English
canned response, not the Arabic one: the language-marker list contains no
substring of "صباح الخير". -/
theorem arabic_greeting_gets_english_counterexample :
    query envFail "صباح الخير" 5
      = { answer := friendlyResponseEn, sources := [] }
    ∧ friendlyResponseEn ≠ friendlyResponseAr := by
  constructor
  · decide
  · decide

/-- C4 amended: a question whose lowercased trimmed text equals an Arabic
greeting phrase of the table is classified as a greeting and short-circuits
with empty sources, but the canned response is the Arabic one only when the
question contains one of the Arabic marker substrings (كيف, شلون, ازي, مرحبا,
أهلا, السلام); "صباح الخير" and "مساء الخير" contain none of them and receive
the English response. -/
theorem arabic_greeting_amended (env : QueryEnv) (q : String) (n : Nat)
    (hmem : normalizeQuestion q ∈ arabicGreetingPhrases) :
    query env q n =
      { answer := if hasArabicMarkerB q then friendlyResponseAr else friendlyResponseEn
        sources := [] } := by
  have hsub : ∀ g ∈ arabicGreetingPhrases, g ∈ casualGreetings := by decide
  have hc : isCasualB q = true := by
    unfold isCasualB
    rw [List.any_eq_true]
    exact ⟨normalizeQuestion q, hsub _ hmem, strIn_self _⟩
  exact query_greeting env q n hc

set_option maxRecDepth 16384 in
/-- Witness for the amended C4: "مرحبا" contains an Arabic marker and gets the
Arabic canned response with empty sources. -/
theorem arabic_greeting_amended_witness :
    query envFail "مرحبا" 5 = { answer := friendlyResponseAr, sources := [] } := by
  rw [arabic_greeting_amended envFail "مرحبا" 5 (by decide)]
  decide

/-- Counterexample to C9: the code returns the generated text exactly as the
model produced it, without trimming surrounding whitespace: a model output
" An answer. " is passed through with its spaces, so the answer differs from
its trimmed form. -/
theorem answer_not_trimmed_counterexample :
    envOk.generate (mkPrompt (assembleContext [hitA]) "what is the leave policy")
        = .ok " An answer. "
    ∧ (query envOk "what is the leave policy" 5).answer = " An answer. "
    ∧ String.mk (trimList (" An answer. " : String).data) ≠ " An answer. " := by
  refine ⟨rfl, ?_, by decide⟩
  rw [query_success envOk "what is the leave policy" 5 [1] [hitA] " An answer. "
    (by decide) rfl rfl (by simp) rfl]

/-- C9 amended: for every non-greeting question with at least one retrieval
hit, the answer is the generative model's text output completely unmodified
(no trimming of any kind), and the prompt sent to the model contains the
assembled context and the verbatim question. -/
theorem answer_passthrough_amended
    (env : QueryEnv) (q : String) (n : Nat)
    (emb : Embedding) (hits : List Hit) (resp : String)
    (hng : isCasualB q = false) (he : env.embedQuery q = .ok emb)
    (hs : env.search emb n = .ok hits) (hne : hits ≠ [])
    (hg : env.generate (mkPrompt (assembleContext hits) q) = .ok resp) :
    (query env q n).answer = resp
    ∧ (∃ a b : List Char,
        (mkPrompt (assembleContext hits) q).data = a ++ (assembleContext hits).data ++ b)
    ∧ (∃ a b : List Char,
        (mkPrompt (assembleContext hits) q).data = a ++ q.data ++ b) := by
  refine ⟨?_, ?_, ?_⟩
  · rw [query_success env q n emb hits resp hng he hs hne hg]
  · exact ⟨promptHeader.data,
      promptQuestionLabel.data ++ q.data ++ promptFooter.data,
      by simp [mkPrompt, List.append_assoc]⟩
  · exact ⟨promptHeader.data ++ (assembleContext hits).data ++ promptQuestionLabel.data,
      promptFooter.data,
      by simp [mkPrompt, List.append_assoc]⟩

/-- Witness for the amended C9: the concrete untrimmed model output is passed
through verbatim. -/
theorem answer_passthrough_amended_witness :
    (query envOk "what is the leave policy" 5).answer = " An answer. " :=
  (answer_passthrough_amended envOk "what is the leave policy" 5 [1] [hitA]
    " An answer. " (by decide) rfl rfl (by simp) rfl).1

/-! ## Unfolding lemmas for `add_document` and concrete ingestion environments -/

theorem add_document_embed_error (env : IngestEnv) (index : List IndexRecord)
    (content filename e : String)
    (he : env.embedDocs (env.split content) = .error e) :
    add_document env index content filename = (index, .error e) := by
  simp [add_document, he]

theorem add_document_write_error (env : IngestEnv) (index : List IndexRecord)
    (content filename : String) (embs : List Embedding) (e : String)
    (he : env.embedDocs (env.split content) = .ok embs)
    (hw : env.indexAddFails = some e) :
    add_document env index content filename = (index, .error e) := by
  simp [add_document, he, hw]

theorem add_document_ok (env : IngestEnv) (index : List IndexRecord)
    (content filename : String) (embs : List Embedding)
    (he : env.embedDocs (env.split content) = .ok embs)
    (hw : env.indexAddFails = none) :
    add_document env index content filename
      = (index ++ chunkRecords (assignedIds filename env.uuids (env.split content).length)
            embs (env.split content) (chunkMetadatas filename (env.split content)),
         .ok ("Added " ++ toString (env.split content).length ++ " chunks from " ++ filename)) := by
  simp [add_document, he, hw]

theorem add_document_fst_cases (env : IngestEnv) (index : List IndexRecord)
    (content filename : String) :
    (add_document env index content filename).1 = index
    ∨ ∃ embs, env.embedDocs (env.split content) = .ok embs
        ∧ (add_document env index content filename).1
          = index ++ chunkRecords (assignedIds filename env.uuids (env.split content).length)
              embs (env.split content) (chunkMetadatas filename (env.split content)) := by
  rcases he : env.embedDocs (env.split content) with e | embs
  · left
    rw [add_document_embed_error env index content filename e he]
  · rcases hw : env.indexAddFails with _ | e
    · right
      exact ⟨embs, rfl, by rw [add_document_ok env index content filename embs he hw]⟩
    · left
      rw [add_document_write_error env index content filename embs e he hw]

/-- C6: if embedding fails, ingestion aborts before any write to the index
(the returned index equals the input index and the error propagates), and if
the index write fails, the error propagates to the caller and no report string
is returned. -/
theorem ingestion_failure_is_atomic (env : IngestEnv) (index : List IndexRecord)
    (content filename : String) :
    (∀ e, env.embedDocs (env.split content) = .error e →
        add_document env index content filename = (index, .error e))
    ∧ (∀ embs e, env.embedDocs (env.split content) = .ok embs →
        env.indexAddFails = some e →
        add_document env index content filename = (index, .error e)) :=
  ⟨fun e he => add_document_embed_error env index content filename e he,
   fun embs e he hw => add_document_write_error env index content filename embs e he hw⟩

/-- Witness for C6: a concrete embedding failure leaves the index unchanged,
and a concrete index-write failure propagates with no report. -/
theorem ingestion_failure_is_atomic_witness :
    add_document ingEnvEmbedFail [] "doc body" "hr_data.txt"
        = ([], .error "embed down")
    ∧ add_document ingEnvWriteFail [] "doc body" "hr_data.txt"
        = ([], .error "chroma down") :=
  ⟨(ingestion_failure_is_atomic ingEnvEmbedFail [] "doc body" "hr_data.txt").1
      "embed down" rfl,
   (ingestion_failure_is_atomic ingEnvWriteFail [] "doc body" "hr_data.txt").2
      [[1]] "chroma down" rfl rfl⟩

/-! ## Uniqueness of assigned chunk ids -/

theorem string_data_append (a b : String) : (a ++ b).data = a.data ++ b.data := rfl

/-- In a character list of the form `a ++ '_' :: b` with `b` underscore-free,
the part after the last underscore is determined: two such decompositions have
equal final components. -/
theorem after_last_underscore_unique :
    ∀ (a b a' b' : List Char), ('_' : Char) ∉ b → ('_' : Char) ∉ b' →
      a ++ '_' :: b = a' ++ '_' :: b' → b = b' := by
  intro a
  induction a with
  | nil =>
    intro b a' b' hb hb' h
    cases a' with
    | nil =>
      simpa using h
    | cons c t =>
      simp only [List.nil_append, List.cons_append, List.cons.injEq] at h
      exact absurd (h.2 ▸ List.mem_append_right t (List.mem_cons_self _ _)) hb
  | cons c t ih =>
    intro b a' b' hb hb' h
    cases a' with
    | nil =>
      simp only [List.cons_append, List.nil_append, List.cons.injEq] at h
      exact absurd (h.2 ▸ List.mem_append_right t (List.mem_cons_self _ _)) hb'
    | cons c' t' =>
      simp only [List.cons_append, List.cons.injEq] at h
      exact ih b t' b' hb hb' h.2

theorem mkId_data (f : String) (i : Nat) (u : String) :
    (mkId f i u).data = (f.data ++ '_' :: (toString i).data) ++ '_' :: u.data := by
  simp [mkId, string_data_append, List.append_assoc]

/-- Two equal assigned ids with underscore-free uuid components have equal
uuid components, whatever the filenames and chunk indices are. -/
theorem mkId_uuid_inj (f f' u u' : String) (i i' : Nat)
    (hu : ('_' : Char) ∉ u.data) (hu' : ('_' : Char) ∉ u'.data)
    (h : mkId f i u = mkId f' i' u') : u = u' := by
  have hd : (mkId f i u).data = (mkId f' i' u').data := by rw [h]
  rw [mkId_data, mkId_data] at hd
  have hdata := after_last_underscore_unique _ _ _ _ hu hu' hd
  cases u
  cases u'
  exact congrArg String.mk (by simpa using hdata)

/-- Within one ingestion call, the assigned ids are pairwise distinct provided
the drawn uuids are underscore-free and pairwise distinct. -/
theorem assignedIds_nodup (f : String) (u : Nat → String) (n : Nat)
    (hufree : ∀ i, ('_' : Char) ∉ (u i).data)
    (hinj : ∀ i j, u i = u j → i = j) :
    (assignedIds f u n).Nodup := by
  unfold assignedIds
  refine List.Nodup.map_on ?_ (List.nodup_range n)
  intro i _ j _ hm
  exact hinj i j (mkId_uuid_inj f f (u i) (u j) i j (hufree i) (hufree j) hm)

/-- Ids assigned by two different ingestion calls are disjoint provided all
uuids are underscore-free and the two uuid streams never collide. -/
theorem assignedIds_disjoint (f1 f2 : String) (u1 u2 : Nat → String) (n1 n2 : Nat)
    (h1 : ∀ i, ('_' : Char) ∉ (u1 i).data)
    (h2 : ∀ i, ('_' : Char) ∉ (u2 i).data)
    (hcross : ∀ i j, u1 i ≠ u2 j) :
    List.Disjoint (assignedIds f1 u1 n1) (assignedIds f2 u2 n2) := by
  intro a ha1 ha2
  simp only [assignedIds, List.mem_map, List.mem_range] at ha1 ha2
  obtain ⟨i, _, hEq1⟩ := ha1
  obtain ⟨j, _, hEq2⟩ := ha2
  exact hcross i j
    (mkId_uuid_inj f1 f2 (u1 i) (u2 j) i j (h1 i) (h2 j) (hEq1.trans hEq2.symm))

theorem map_fst_zip_sublist {α β : Type} (l : List α) :
    ∀ r : List β, ((l.zip r).map Prod.fst).Sublist l := by
  induction l with
  | nil =>
    intro r
    simp
  | cons a l' ih =>
    intro r
    cases r with
    | nil =>
      simp [List.zip_nil_right]
    | cons b r' =>
      rw [List.zip_cons_cons, List.map_cons]
      exact List.Sublist.cons₂ a (ih r')

/-- The ids of the records actually committed by `collection.add` form a
sublist of the assigned id list (the zip truncates to the shortest column). -/
theorem chunkRecords_ids_sublist (ids : List String) (embs : List Embedding)
    (texts : List String) (metas : List Metadata) :
    ((chunkRecords ids embs texts metas).map (fun r => r.id)).Sublist ids := by
  unfold chunkRecords
  rw [List.map_map]
  exact map_fst_zip_sublist ids _

/-- C8: every chunk record committed to the index across two ingestion calls
(including repeated uploads of the same filename) has a globally unique id,
provided the drawn uuids are underscore-free (as `uuid.uuid4()` strings are)
and collision-free; in particular, within a single ingestion call all assigned
ids are pairwise distinct. -/
theorem committed_ids_globally_unique
    (env1 env2 : IngestEnv) (c1 f1 c2 f2 : String)
    (hu1 : ∀ i, ('_' : Char) ∉ (env1.uuids i).data)
    (hu2 : ∀ i, ('_' : Char) ∉ (env2.uuids i).data)
    (hinj1 : ∀ i j, env1.uuids i = env1.uuids j → i = j)
    (hinj2 : ∀ i j, env2.uuids i = env2.uuids j → i = j)
    (hcross : ∀ i j, env1.uuids i ≠ env2.uuids j) :
    ((add_document env2 (add_document env1 [] c1 f1).1 c2 f2).1.map
        (fun r => r.id)).Nodup
    ∧ ∀ n, (assignedIds f1 env1.uuids n).Nodup := by
  have hn1 : ∀ n, (assignedIds f1 env1.uuids n).Nodup :=
    fun n => assignedIds_nodup f1 env1.uuids n hu1 hinj1
  have hn2 : ∀ n, (assignedIds f2 env2.uuids n).Nodup :=
    fun n => assignedIds_nodup f2 env2.uuids n hu2 hinj2
  refine ⟨?_, hn1⟩
  obtain hA | ⟨embs1, _, hA⟩ := add_document_fst_cases env1 [] c1 f1 <;>
    obtain hB | ⟨embs2, _, hB⟩ :=
      add_document_fst_cases env2 (add_document env1 [] c1 f1).1 c2 f2 <;>
    rw [hB, hA]
  · simp
  · simp only [List.nil_append]
    exact List.Nodup.sublist (chunkRecords_ids_sublist _ _ _ _) (hn2 _)
  · simp only [List.nil_append]
    exact List.Nodup.sublist (chunkRecords_ids_sublist _ _ _ _) (hn1 _)
  · simp only [List.nil_append, List.map_append]
    rw [List.nodup_append]
    refine ⟨List.Nodup.sublist (chunkRecords_ids_sublist _ _ _ _) (hn1 _),
            List.Nodup.sublist (chunkRecords_ids_sublist _ _ _ _) (hn2 _), ?_⟩
    intro a ha1 ha2
    exact assignedIds_disjoint f1 f2 env1.uuids env2.uuids _ _ hu1 hu2 hcross
      (List.Sublist.subset (chunkRecords_ids_sublist _ _ _ _) ha1)
      (List.Sublist.subset (chunkRecords_ids_sublist _ _ _ _) ha2)

theorem replicate_no_underscore (c : Char) (hc : c ≠ '_') (i : Nat) :
    ('_' : Char) ∉ (String.mk (List.replicate (i + 1) c)).data := by
  intro h
  exact hc ((List.eq_of_mem_replicate h).symm)

theorem replicate_string_inj (c : Char) (i j : Nat)
    (h : String.mk (List.replicate (i + 1) c) = String.mk (List.replicate (j + 1) c)) :
    i = j := by
  have hd : List.replicate (i + 1) c = List.replicate (j + 1) c := congrArg String.data h
  have hlen := congrArg List.length hd
  simpa using hlen

theorem uuidsU_ne_uuidsV (i j : Nat) : uuidsU i ≠ uuidsV j := by
  intro h
  have hd : List.replicate (i + 1) 'u' = List.replicate (j + 1) 'v' :=
    congrArg String.data h
  have hm : ('u' : Char) ∈ List.replicate (j + 1) 'v' :=
    hd ▸ List.mem_replicate.mpr ⟨Nat.succ_ne_zero i, rfl⟩
  exact absurd (List.eq_of_mem_replicate hm) (by decide)

/-- Witness for C8: two concrete successful ingestions of different documents
under the same filename produce an index whose committed ids are pairwise
distinct, and a concrete single call assigns pairwise distinct ids. -/
theorem committed_ids_globally_unique_witness :
    ((add_document ingEnvB (add_document ingEnvA [] "doc one" "hr_data.txt").1
        "doc two" "hr_data.txt").1.map (fun r => r.id)).Nodup
    ∧ (assignedIds "hr_data.txt" ingEnvA.uuids 3).Nodup := by
  have h := committed_ids_globally_unique ingEnvA ingEnvB "doc one" "hr_data.txt"
    "doc two" "hr_data.txt"
    (replicate_no_underscore 'u' (by decide))
    (replicate_no_underscore 'v' (by decide))
    (replicate_string_inj 'u')
    (replicate_string_inj 'v')
    uuidsU_ne_uuidsV
  exact ⟨h.1, h.2 3⟩

/-! ## Chunker round-trip -/

theorem chunkText_nil (size overlap : Nat) : chunkText size overlap [] = [] := by
  unfold chunkText
  simp

/-- Flattening the tail reconstruction of the chunks of `u` recovers `u` minus
its first `overlap` characters. -/
theorem chunkText_flatten_drop (size overlap : Nat) (hov : overlap < size) :
    ∀ (fuel : Nat) (u : List Char), u.length ≤ fuel →
      ((chunkText size overlap u).map (List.drop overlap)).flatten = u.drop overlap := by
  intro fuel
  induction fuel with
  | zero =>
    intro u hu
    have hnil : u = [] := List.eq_nil_of_length_eq_zero (Nat.le_zero.mp hu)
    subst hnil
    rw [chunkText_nil]
    simp
  | succ fuel ih =>
    intro u hu
    rw [chunkText.eq_def]
    split
    · rename_i hemp
      have hnil : u = [] := by simpa [List.isEmpty_iff] using hemp
      subst hnil
      simp
    · split
      · simp
      · split
        · rename_i hle h0
          omega
        · rename_i hemp hle step hstep
          simp only [List.map_cons, List.flatten_cons]
          rw [ih (u.drop (step + 1)) (by simp only [List.length_drop]; omega)]
          rw [List.drop_drop, List.drop_take]
          rw [show step + 1 + overlap = overlap + (step + 1) by omega, ← List.drop_drop]
          rw [show size - overlap = step + 1 from hstep]
          exact List.take_append_drop (step + 1) (u.drop overlap)

theorem chunkText_reconstruct (size overlap : Nat) (hov : overlap < size)
    (t : List Char) :
    reconstructChunks overlap (chunkText size overlap t) = t := by
  rw [chunkText.eq_def]
  split
  · rename_i hemp
    have hnil : t = [] := by simpa [List.isEmpty_iff] using hemp
    subst hnil
    rfl
  · split
    · simp [reconstructChunks]
    · split
      · rename_i hle h0
        omega
      · rename_i hemp hle step hstep
        simp only [reconstructChunks]
        rw [chunkText_flatten_drop size overlap hov (t.drop (step + 1)).length
          (t.drop (step + 1)) le_rfl]
        rw [List.drop_drop]
        rw [show step + 1 + overlap = size by omega]
        exact List.take_append_drop size t

/-- C7: for every document text, concatenating the chunks produced by the
chunker while removing the overlap regions reconstructs the original text
exactly, and chunking empty input yields an empty sequence of chunks.  Stated
for every overlap strictly smaller than the chunk size (the configuration in
use is size 300, overlap 50). -/
theorem chunker_round_trip (size overlap : Nat) (text : List Char)
    (hov : overlap < size) :
    reconstructChunks overlap (chunkText size overlap text) = text
    ∧ chunkText size overlap [] = [] :=
  ⟨chunkText_reconstruct size overlap hov text, chunkText_nil size overlap⟩

/-- Witness for C7: the round trip at size 4, overlap 1 on the text of the
spec's end-to-end scenario 1. -/
theorem chunker_round_trip_witness :
    reconstructChunks 1 (chunkText 4 1 ("A. B. C." : String).data)
        = ("A. B. C." : String).data
    ∧ chunkText 4 1 [] = [] :=
  ⟨(chunker_round_trip 4 1 ("A. B. C." : String).data (by decide)).1,
   (chunker_round_trip 4 1 ("A. B. C." : String).data (by decide)).2⟩

end RagCore
